import Mathlib

/-!
Verification development for the `project_4-sm3-crypto` repository.

The Python sources are shallowly embedded: byte strings become `List Nat`
(one entry per byte), hex digests become `List Char`, machine integers are
`Nat` with explicit masking by `0xFFFFFFFF` exactly where the Python code
masks, and code that can raise a Python exception is embedded in
`Except PyErr`.  Python `for` loops that thread a mutable accumulator and
may raise are embedded with the explicit fold `foldE`; list comprehensions
that may raise become `mapE`.
-/

/-- Python exception classes that the embedded code can raise. -/
inductive PyErr where
  | valueError (msg : String)
  | indexError (msg : String)
  | structError (msg : String)
  | attributeError (msg : String)
deriving DecidableEq

/-- A Python `for` loop body that updates accumulator `s` and may raise:
the loop stops at the first raised exception. -/
def foldE (f : σ → α → Except PyErr σ) : σ → List α → Except PyErr σ
  | s, [] => .ok s
  | s, a :: l =>
    match f s a with
    | .ok s' => foldE f s' l
    | .error e => .error e

/-- A Python list comprehension whose element expression may raise:
elements are produced left to right, stopping at the first exception. -/
def mapE (f : α → Except PyErr β) : List α → Except PyErr (List β)
  | [] => .ok []
  | a :: l =>
    match f a with
    | .ok b =>
      match mapE f l with
      | .ok bs => .ok (b :: bs)
      | .error e => .error e
    | .error e => .error e

/-- Slicing a byte string into the 64-byte blocks visited by
`for i in range(0, len(m), 64)`.  The fuel argument of `pyChunks64Go` is an
implementation artifact keeping the recursion structural; it never runs out
because each step consumes at least one element. -/
def pyChunks64Go : Nat → List Nat → List (List Nat)
  | 0, _ => []
  | fuel + 1, l => if l = [] then [] else l.take 64 :: pyChunks64Go fuel (l.drop 64)

/-- The 64-byte message blocks of `m`, in order. -/
def pyChunks64 (l : List Nat) : List (List Nat) := pyChunks64Go l.length l

/-- Python list indexing `l[i]`, including negative indices counting from
the end, raising `IndexError` when out of range. -/
def pyIdx (l : List α) (i : Int) : Except PyErr α :=
  let j : Int := if i < 0 then (l.length : Int) + i else i
  if h : 0 ≤ j ∧ j < (l.length : Int) then
    .ok (l.get ⟨j.toNat, by omega⟩)
  else
    .error (.indexError "list index out of range")

/-- `struct.pack('<Q', v)`: the 8 little-endian bytes of `v`, raising
`struct.error` when `v` does not fit in 64 bits. -/
def pack_u64le (v : Nat) : Except PyErr (List Nat) :=
  if v < 2 ^ 64 then
    .ok [v % 256, v / 2 ^ 8 % 256, v / 2 ^ 16 % 256, v / 2 ^ 24 % 256,
         v / 2 ^ 32 % 256, v / 2 ^ 40 % 256, v / 2 ^ 48 % 256, v / 2 ^ 56 % 256]
  else
    .error (.structError "int too large to convert")

/-- The 16 words of `struct.unpack('<16I', B)` (little-endian 32-bit words);
callers guard that `B` has exactly 64 bytes. -/
def unpack16le (B : List Nat) : List Nat :=
  (List.range 16).map fun i =>
    B.getD (4 * i) 0 + 256 * B.getD (4 * i + 1) 0 +
      65536 * B.getD (4 * i + 2) 0 + 16777216 * B.getD (4 * i + 3) 0

/-! ## `src/sm3_basic.py` -/

/-- Initialization vector `IV` of `sm3_basic.py`. -/
def IV : List Nat :=
  [0x7380166F, 0x4914B2B9, 0x172442D7, 0xDA8A0600,
   0xA96F30BC, 0x163138AA, 0xE38DEE4D, 0xB0FB0E4E]

/-- Round-constant table `T` of `sm3_basic.py`. -/
def T : List Nat := List.replicate 16 0x79CC4519 ++ List.replicate 48 0x7A879D8A

/-- `rotate_left(x, n)` from `sm3_basic.py`:
`((x << n) & 0xFFFFFFFF) | ((x >> (32 - n)) & 0xFFFFFFFF)`.
Python `32 - n` is negative for `n > 32`, and a negative shift count raises
`ValueError`. -/
def rotate_left (x n : Nat) : Except PyErr Nat :=
  if 32 < n then .error (.valueError "negative shift count")
  else .ok (((x <<< n) &&& 0xFFFFFFFF) ||| ((x >>> (32 - n)) &&& 0xFFFFFFFF))

/-- `P0(x)` from `sm3_basic.py`. -/
def P0 (x : Nat) : Except PyErr Nat := do
  let r9 ← rotate_left x 9
  let r17 ← rotate_left x 17
  .ok (x ^^^ r9 ^^^ r17)

/-- `P1(x)` from `sm3_basic.py`. -/
def P1 (x : Nat) : Except PyErr Nat := do
  let r15 ← rotate_left x 15
  let r23 ← rotate_left x 23
  .ok (x ^^^ r15 ^^^ r23)

/-- `FF(x, y, z, j)` from `sm3_basic.py`. -/
def FF (x y z j : Nat) : Nat :=
  if j ≤ 15 then x ^^^ y ^^^ z else (x &&& y) ||| (x &&& z) ||| (y &&& z)

/-- `GG(x, y, z, j)` from `sm3_basic.py`.  Python `(~x) & z` on nonnegative
ints equals `z` with the bits of `x` cleared, i.e. `z - (z &&& x)`. -/
def GG (x y z j : Nat) : Nat :=
  if j ≤ 15 then x ^^^ y ^^^ z else (x &&& y) ||| (z - (z &&& x))

/-- `padding(message)` from `sm3_basic.py`.  `%` on ints is `Int.emod` and
`//` is `Int.fdiv` (Python division floors); `b'\x00' * k` for negative `k`
is empty, matching `Int.toNat`. -/
def padding (message : List Nat) : Except PyErr (List Nat) := do
  let message_bit_length := message.length * 8
  let m1 := message ++ [0x80]
  let pl0 : Int := Int.fdiv (448 - ((m1.length : Int) * 8) % 512) 8
  let padding_length : Int := if pl0 < 0 then pl0 + 64 else pl0
  let m2 := m1 ++ List.replicate padding_length.toNat 0
  let lenBytes ← pack_u64le message_bit_length
  .ok (m2 ++ lenBytes)

/-- `message_extension(B)` from `sm3_basic.py`: returns `(W, W')`. -/
def message_extension (B : List Nat) : Except PyErr (List Nat × List Nat) := do
  if B.length ≠ 64 then .error (.structError "unpack requires a buffer of 64 bytes") else
  let W0 := unpack16le B
  let W ← foldE (fun W j => do
      let r3 ← rotate_left (W.getD (j - 3) 0) 15
      let p ← P1 (W.getD (j - 16) 0 ^^^ W.getD (j - 9) 0 ^^^ r3)
      let r13 ← rotate_left (W.getD (j - 13) 0) 7
      let Wj := p ^^^ r13 ^^^ W.getD (j - 6) 0
      .ok (W ++ [Wj &&& 0xFFFFFFFF])) W0 (List.range' 16 52)
  let Wp := (List.range 64).map fun j => (W.getD j 0 ^^^ W.getD (j + 4) 0) &&& 0xFFFFFFFF
  .ok (W, Wp)

/-- The eight working variables `A..H` of the basic compression loop. -/
structure Regs where
  a : Nat
  b : Nat
  c : Nat
  d : Nat
  e : Nat
  f : Nat
  g : Nat
  h : Nat
deriving DecidableEq

/-- One iteration `j` of the 64-round loop in `compression` of
`sm3_basic.py`. -/
def round_basic (W Wp : List Nat) (s : Regs) (j : Nat) : Except PyErr Regs := do
  let Tj := T.getD j 0
  let rA ← rotate_left s.a 12
  let rT ← rotate_left Tj j
  let SS1 ← rotate_left ((rA + s.e + rT) &&& 0xFFFFFFFF) 7
  let SS2 := SS1 ^^^ rA
  let TT1 := (FF s.a s.b s.c j + s.d + SS2 + Wp.getD j 0) &&& 0xFFFFFFFF
  let TT2 := (GG s.e s.f s.g j + s.h + SS1 + W.getD j 0) &&& 0xFFFFFFFF
  let rB ← rotate_left s.b 9
  let rF ← rotate_left s.f 19
  let p0 ← P0 TT2
  .ok ⟨TT1, s.a, rB, s.c, p0, s.e, rF, s.g⟩

/-- `compression(V, B)` from `sm3_basic.py`. -/
def compression (V : List Nat) (B : List Nat) : Except PyErr (List Nat) := do
  let (W, Wp) ← message_extension B
  match V with
  | [a0, b0, c0, d0, e0, f0, g0, h0] => do
    let fin ← foldE (round_basic W Wp) ⟨a0, b0, c0, d0, e0, f0, g0, h0⟩ (List.range 64)
    .ok [(fin.a ^^^ a0) &&& 0xFFFFFFFF, (fin.b ^^^ b0) &&& 0xFFFFFFFF,
         (fin.c ^^^ c0) &&& 0xFFFFFFFF, (fin.d ^^^ d0) &&& 0xFFFFFFFF,
         (fin.e ^^^ e0) &&& 0xFFFFFFFF, (fin.f ^^^ f0) &&& 0xFFFFFFFF,
         (fin.g ^^^ g0) &&& 0xFFFFFFFF, (fin.h ^^^ h0) &&& 0xFFFFFFFF]
  | _ => .error (.valueError "not enough values to unpack")

/-- The lowercase hexadecimal digit characters. -/
def hexDigitChar (d : Nat) : Char :=
  if d < 10 then Char.ofNat (48 + d) else Char.ofNat (87 + d)

/-- Big-endian hex digits of `n` accumulated onto `acc`; the fuel argument
keeps the recursion structural and never runs out for `fuel ≥ n`. -/
def hexStrCore : Nat → Nat → List Char → List Char
  | 0, _, acc => acc
  | fuel + 1, n, acc =>
    if n = 0 then acc else hexStrCore fuel (n / 16) (hexDigitChar (n % 16) :: acc)

/-- Python `'%x' % n`: minimal lowercase hex digits of `n` (`"0"` for 0). -/
def hexStr (x : Nat) : List Char := if x = 0 then ['0'] else hexStrCore x x []

/-- The f-string `f'\x7bx:08x\x7d'`: lowercase hex, left-padded with `'0'`
to at least 8 characters. -/
def pyHex08 (x : Nat) : List Char :=
  List.replicate (8 - (hexStr x).length) '0' ++ hexStr x

/-- The digest-rendering expression `''.join(f'\x7bx:08x\x7d' for x in V)`
shared by `sm3_hash` and `sm3_hash_optimized`. -/
def render_digest (V : List Nat) : List Char := (V.map pyHex08).flatten

/-- `sm3_hash(message)` from `sm3_basic.py`. -/
def sm3_hash (message : List Nat) : Except PyErr (List Char) := do
  let padded ← padding message
  let V ← foldE compression IV (pyChunks64 padded)
  .ok (render_digest V)

/-! ## `src/sm3_optimized.py`

Note: the module header `from typing import List, bytes` raises
`ImportError` in Python (`typing` exports no `bytes`); the definitions
below embed the function bodies themselves. -/

/-- Initialization vector `_IV` of `sm3_optimized.py`. -/
def optIV : List Nat :=
  [0x7380166F, 0x4914B2B9, 0x172442D7, 0xDA8A0600,
   0xA96F30BC, 0x163138AA, 0xE38DEE4D, 0xB0FB0E4E]

/-- Round-constant table `_T` of `sm3_optimized.py`. -/
def optT : List Nat := List.replicate 16 0x79CC4519 ++ List.replicate 48 0x7A879D8A

/-- `_rotate_left(x, n)` from `sm3_optimized.py`:
`((x << n) | (x >> (32 - n))) & 0xFFFFFFFF`, raising `ValueError` for the
negative shift count `32 - n` when `n > 32`. -/
def opt_rotate_left (x n : Nat) : Except PyErr Nat :=
  if 32 < n then .error (.valueError "negative shift count")
  else .ok (((x <<< n) ||| (x >>> (32 - n))) &&& 0xFFFFFFFF)

/-- `_P0(x)` from `sm3_optimized.py`. -/
def opt_P0 (x : Nat) : Except PyErr Nat := do
  let r9 ← opt_rotate_left x 9
  let r17 ← opt_rotate_left x 17
  .ok (x ^^^ r9 ^^^ r17)

/-- `_P1(x)` from `sm3_optimized.py`. -/
def opt_P1 (x : Nat) : Except PyErr Nat := do
  let r15 ← opt_rotate_left x 15
  let r23 ← opt_rotate_left x 23
  .ok (x ^^^ r15 ^^^ r23)

/-- `_FF1(x, y, z)` from `sm3_optimized.py`. -/
def opt_FF1 (x y z : Nat) : Nat := x ^^^ y ^^^ z

/-- `_FF2(x, y, z)` from `sm3_optimized.py`. -/
def opt_FF2 (x y z : Nat) : Nat := (x &&& y) ||| (x &&& z) ||| (y &&& z)

/-- `_GG1(x, y, z)` from `sm3_optimized.py`. -/
def opt_GG1 (x y z : Nat) : Nat := x ^^^ y ^^^ z

/-- `_GG2(x, y, z)` from `sm3_optimized.py`; Python `(~x) & z` on
nonnegative ints equals `z` with the bits of `x` cleared. -/
def opt_GG2 (x y z : Nat) : Nat := (x &&& y) ||| (z - (z &&& x))

/-- `_padding(message)` from `sm3_optimized.py`:
`pad_len = (55 - msg_len) % 64` (Python `%` on a positive modulus is
`Int.emod`), then `message + b'\x80' + b'\x00' * pad_len + pack('<Q', bits)`. -/
def opt_padding (message : List Nat) : Except PyErr (List Nat) := do
  let msg_len := message.length
  let pad_len : Int := (55 - (msg_len : Int)) % 64
  let lenBytes ← pack_u64le (msg_len * 8)
  .ok (message ++ [0x80] ++ List.replicate pad_len.toNat 0 ++ lenBytes)

/-- `_message_extension(B)` from `sm3_optimized.py`: preallocates
`W[16..67]` as zeros and fills them by assignment. -/
def opt_message_extension (B : List Nat) : Except PyErr (List Nat × List Nat) := do
  if B.length ≠ 64 then .error (.structError "unpack requires a buffer of 64 bytes") else
  let W0 := unpack16le B ++ List.replicate 52 0
  let W ← foldE (fun W j => do
      let v1 := W.getD (j - 16) 0 ^^^ W.getD (j - 9) 0
      let r3 ← opt_rotate_left (W.getD (j - 3) 0) 15
      let v2 ← opt_P1 (v1 ^^^ r3)
      let r13 ← opt_rotate_left (W.getD (j - 13) 0) 7
      let v3 := v2 ^^^ r13 ^^^ W.getD (j - 6) 0
      .ok (W.set j (v3 &&& 0xFFFFFFFF))) W0 (List.range' 16 52)
  let Wp := (List.range 64).map fun j => W.getD j 0 ^^^ W.getD (j + 4) 0
  .ok (W, Wp)

/-- The working variables of `_compression` in `sm3_optimized.py`,
including the precomputed rotations `rotate_B` and `rotate_F`. -/
structure RegsO where
  a : Nat
  bv : Nat
  c : Nat
  d : Nat
  e : Nat
  f : Nat
  g : Nat
  h : Nat
  rb : Nat
  rf : Nat
deriving DecidableEq

/-- One iteration `j` of the 64-round loop in `_compression` of
`sm3_optimized.py`. -/
def round_opt (W Wp : List Nat) (s : RegsO) (j : Nat) : Except PyErr RegsO := do
  let Tj := optT.getD j 0
  let rA ← opt_rotate_left s.a 12
  let rT ← opt_rotate_left Tj j
  let SS1 ← opt_rotate_left ((rA + s.e + rT) &&& 0xFFFFFFFF) 7
  let SS2 := SS1 ^^^ rA
  let ff := if j ≤ 15 then opt_FF1 s.a s.bv s.c else opt_FF2 s.a s.bv s.c
  let gg := if j ≤ 15 then opt_GG1 s.e s.f s.g else opt_GG2 s.e s.f s.g
  let TT1 := (ff + s.d + SS2 + Wp.getD j 0) &&& 0xFFFFFFFF
  let TT2 := (gg + s.h + SS1 + W.getD j 0) &&& 0xFFFFFFFF
  let p0 ← opt_P0 TT2
  let a' := TT1
  let b' := s.a
  let c' := s.rb
  let d' := s.c
  let e' := p0
  let f' := s.e
  let g' := s.rf
  let h' := s.g
  let rb' ← opt_rotate_left b' 9
  let rf' ← opt_rotate_left f' 19
  .ok ⟨a', b', c', d', e', f', g', h', rb', rf'⟩

/-- `_compression(V, B)` from `sm3_optimized.py`. -/
def opt_compression (V : List Nat) (B : List Nat) : Except PyErr (List Nat) := do
  let (W, Wp) ← opt_message_extension B
  match V with
  | [a0, b0, c0, d0, e0, f0, g0, h0] => do
    let rb0 ← opt_rotate_left b0 9
    let rf0 ← opt_rotate_left f0 19
    let fin ← foldE (round_opt W Wp) ⟨a0, b0, c0, d0, e0, f0, g0, h0, rb0, rf0⟩
      (List.range 64)
    .ok [(fin.a ^^^ a0) &&& 0xFFFFFFFF, (fin.bv ^^^ b0) &&& 0xFFFFFFFF,
         (fin.c ^^^ c0) &&& 0xFFFFFFFF, (fin.d ^^^ d0) &&& 0xFFFFFFFF,
         (fin.e ^^^ e0) &&& 0xFFFFFFFF, (fin.f ^^^ f0) &&& 0xFFFFFFFF,
         (fin.g ^^^ g0) &&& 0xFFFFFFFF, (fin.h ^^^ h0) &&& 0xFFFFFFFF]
  | _ => .error (.valueError "not enough values to unpack")

/-- `sm3_hash_optimized(message)` from `sm3_optimized.py`. -/
def sm3_hash_optimized (message : List Nat) : Except PyErr (List Char) := do
  let padded ← opt_padding message
  let V ← foldE opt_compression optIV (pyChunks64 padded)
  .ok (render_digest V)

/-! ## `src/length_extension.py`

Note: lines 94-97 of the module place a `return` statement outside any
function (a Python `SyntaxError`), so the module cannot be imported;
the definitions below embed the individual function bodies. -/

/-- The value of a single hexadecimal digit character (either case), or
`none` for a non-digit. -/
def hexCharVal (c : Char) : Option Nat :=
  if 48 ≤ c.toNat ∧ c.toNat ≤ 57 then some (c.toNat - 48)
  else if 97 ≤ c.toNat ∧ c.toNat ≤ 102 then some (c.toNat - 87)
  else if 65 ≤ c.toNat ∧ c.toNat ≤ 70 then some (c.toNat - 55)
  else none

/-- One digit of `int(s, 16)`: accumulate a hex digit or raise. -/
def intHexStep (acc : Nat) (c : Char) : Except PyErr Nat :=
  match hexCharVal c with
  | some v => .ok (16 * acc + v)
  | none => .error (.valueError "invalid literal for int() with base 16")

/-- Python `int(s, 16)` restricted to nonempty strings of plain hex
digits.  (CPython additionally accepts sign, surrounding whitespace, a
`0x` marker and underscores; none of those occur in any digest handled
here, and on plain digit strings the semantics coincide.) -/
def pyIntHex (s : List Char) : Except PyErr Nat :=
  if s = [] then .error (.valueError "invalid literal for int() with base 16") else
  foldE intHexStep 0 s

/-- `parse_hash(hash_hex)` from `length_extension.py`: checks the length
is 64 and parses the eight 8-character groups `hash_hex[i*8:(i+1)*8]`. -/
def parse_hash (hash_hex : List Char) : Except PyErr (List Nat) := do
  if hash_hex.length ≠ 64 then
    .error (.valueError "无效的SM3哈希值，长度必须为64个字符") else
  let v0 ← pyIntHex ((hash_hex.drop 0).take 8)
  let v1 ← pyIntHex ((hash_hex.drop 8).take 8)
  let v2 ← pyIntHex ((hash_hex.drop 16).take 8)
  let v3 ← pyIntHex ((hash_hex.drop 24).take 8)
  let v4 ← pyIntHex ((hash_hex.drop 32).take 8)
  let v5 ← pyIntHex ((hash_hex.drop 40).take 8)
  let v6 ← pyIntHex ((hash_hex.drop 48).take 8)
  let v7 ← pyIntHex ((hash_hex.drop 56).take 8)
  .ok [v0, v1, v2, v3, v4, v5, v6, v7]

/-- `sm3_length_extension_attack(original_hash, original_length,
append_data)` from `length_extension.py`.  Byte 88 is `'X'`. -/
def sm3_length_extension_attack (original_hash : List Char)
    (original_length : Nat) (append_data : List Nat) :
    Except PyErr (List Char × List Nat) := do
  let V ← parse_hash original_hash
  -- lines 47-49 compute `original_padded_length`, which is never used
  let _original_padded_length : Int :=
    (original_length : Int) + 1 + (55 - (original_length : Int)) % 64 + 8
  let xs := List.replicate original_length 88
  let px ← opt_padding xs
  let extended_message := xs ++ px.drop original_length ++ append_data
  let append_padded ← opt_padding append_data
  let current_V ← foldE opt_compression V (pyChunks64 append_padded)
  .ok (render_digest current_V, extended_message)

/-! ## `src/merkle_tree.py` -/

/-- `RFC6962_EMPTY_ROOT` from `merkle_tree.py`. -/
def RFC6962_EMPTY_ROOT : List Char :=
  "e3b0c44298fc1c149afbf4c8996fb92427ae41e4649b934ca495991b7852b855".toList

/-- `RFC6962_LEAF_PREFIX = b'\x00'` from `merkle_tree.py` (renamed). -/
def leafDomainTag : List Nat := [0]

/-- `RFC6962_NODE_PREFIX = b'\x01'` from `merkle_tree.py` (renamed). -/
def nodeDomainTag : List Nat := [1]

/-- `bytes.fromhex` restricted to strings of plain hex-digit pairs.
(CPython additionally skips ASCII spaces; no digest handled here
contains one.) -/
def pyFromHex : List Char → Except PyErr (List Nat)
  | [] => .ok []
  | [_] => .error (.valueError "non-hexadecimal number found in fromhex() arg")
  | c1 :: c2 :: rest =>
    match hexCharVal c1, hexCharVal c2 with
    | some h1, some h2 =>
      match pyFromHex rest with
      | .ok bs => .ok ((16 * h1 + h2) :: bs)
      | .error e => .error e
    | _, _ => .error (.valueError "non-hexadecimal number found in fromhex() arg")

/-- `hash_leaf(data)` from `merkle_tree.py`. -/
def hash_leaf (data : List Nat) : Except PyErr (List Char) :=
  sm3_hash_optimized (leafDomainTag ++ data)

/-- `hash_nodes(left, right)` from `merkle_tree.py`. -/
def hash_nodes (left right : List Char) : Except PyErr (List Char) := do
  let left_bytes ← pyFromHex left
  let right_bytes ← pyFromHex right
  sm3_hash_optimized (nodeDomainTag ++ left_bytes ++ right_bytes)

/-- The attribute state of a constructed `MerkleTree` object.  `height`
and `size` are `none` when `__init__` returned on the empty-leaf path
without ever assigning those attributes (accessing them then raises
`AttributeError` in Python). -/
structure MerkleTreeS where
  leaf_hashes : List (List Char)
  leaf_count : Nat
  root : List Char
  tree : List (List (List Char))
  height : Option Nat
  size : Option Nat
deriving DecidableEq

/-- The inner loop of `__init__`: one pass of
`for i in range(0, len(current_level), 2)`, pairing node `i` with node
`i+1` (or with itself when `i+1` is out of range). -/
def pairUp : List (List Char) → Except PyErr (List (List Char))
  | [] => .ok []
  | [x] =>
    match hash_nodes x x with
    | .ok p => .ok [p]
    | .error e => .error e
  | x :: y :: rest =>
    match hash_nodes x y with
    | .ok p =>
      match pairUp rest with
      | .ok t => .ok (p :: t)
      | .error e => .error e
    | .error e => .error e

/-- The outer loop of `__init__`: `for _ in range(height)` building one
level per iteration; returns the levels above the leaf level, bottom-up. -/
def buildUp : Nat → List (List Char) → Except PyErr (List (List (List Char)))
  | 0, _ => .ok []
  | hgt + 1, current => do
    let next ← pairUp current
    let rest ← buildUp hgt next
    .ok (next :: rest)

/-- `MerkleTree.__init__(leaves)` from `merkle_tree.py`.
`math.ceil(math.log2(n))` is embedded as `Nat.clog 2 n`, its exact value
for every count far below the float-precision limit. -/
def mkMerkleTree (leaves : List (List Nat)) : Except PyErr MerkleTreeS := do
  let leaf_hashes ← mapE hash_leaf leaves
  let leaf_count := leaves.length
  if leaf_count = 0 then
    .ok ⟨leaf_hashes, 0, RFC6962_EMPTY_ROOT, [], none, none⟩
  else
    let height := Nat.clog 2 leaf_count
    let size := 2 ^ height
    let leaf_hashes2 ←
      if leaf_count < size then do
        let empty_hash ← hash_leaf []
        pure (leaf_hashes ++ List.replicate (size - leaf_count) empty_hash)
      else
        pure leaf_hashes
    let levels ← buildUp height leaf_hashes2
    let tree := leaf_hashes2 :: levels
    let lastLevel ← pyIdx tree (-1)
    let root ← pyIdx lastLevel 0
    .ok ⟨leaf_hashes2, leaf_count, root, tree, some height, some size⟩

/-- `MerkleTree.get_proof(index)` from `merkle_tree.py`. -/
def get_proof (t : MerkleTreeS) (index : Int) :
    Except PyErr (List (List Char) × List Bool) := do
  if index < 0 ∨ (t.leaf_count : Int) ≤ index then
    .error (.indexError "叶子节点索引超出范围") else
  let res ← foldE (fun acc level => do
      let (adjusted, proof, is_right) := acc
      let sibling_index : Int := if adjusted % 2 = 0 then adjusted + 1 else adjusted - 1
      let is_right_flag : Bool := adjusted % 2 = 0
      let levelList ← pyIdx t.tree (level : Int)
      let sibling ← pyIdx levelList sibling_index
      .ok (Int.fdiv adjusted 2, proof ++ [sibling], is_right ++ [is_right_flag]))
    (index, ([] : List (List Char)), ([] : List Bool))
    (List.range (t.height.getD 0))
  .ok (res.2.1, res.2.2)

/-- `MerkleTree.verify_proof(leaf_data, proof, is_right, root)` from
`merkle_tree.py` (the method reads nothing from `self`). -/
def verify_proof (leaf_data : List Nat) (proof : List (List Char))
    (is_right : List Bool) (root : List Char) : Except PyErr Bool := do
  let ch0 ← hash_leaf leaf_data
  let ch ← foldE (fun current (i : Nat) => do
      let flag ← pyIdx is_right (Int.ofNat i)
      let p := proof.getD i []
      if flag then hash_nodes current p else hash_nodes p current)
    ch0 (List.range proof.length)
  .ok (decide (ch = root))

/-- `MerkleTree.get_non_existence_proof(index)` from `merkle_tree.py`.
Reading the never-assigned `size`/`height` attributes of an empty tree
raises `AttributeError`. -/
def get_non_existence_proof (t : MerkleTreeS) (index : Int) :
    Except PyErr (Option Nat × List (List Char) × List Bool ×
      Option Nat × List (List Char) × List Bool) := do
  let size ← match t.size with
    | some s => pure s
    | none => .error (.attributeError "MerkleTree object has no attribute size")
  if index < 0 ∨ (size : Int) ≤ index then
    .error (.indexError "索引超出范围") else
  if index < (t.leaf_count : Int) then
    .error (.valueError "该索引处存在叶子节点，无法生成不存在性证明") else
  -- `for i in range(index - 1, -1, -1): if i < leaf_count: ... break`
  let leftRes ← match ((List.range index.toNat).reverse.find? (· < t.leaf_count)) with
    | some i => do
      let pr ← get_proof t (i : Int)
      pure (some i, pr.1, pr.2)
    | none => pure ((none : Option Nat), ([] : List (List Char)), ([] : List Bool))
  -- `for i in range(index + 1, leaf_count): if i < leaf_count: ... break`
  let rightRes ← match ((List.range' (index.toNat + 1)
      (t.leaf_count - (index.toNat + 1))).find? (· < t.leaf_count)) with
    | some i => do
      let pr ← get_proof t (i : Int)
      pure (some i, pr.1, pr.2)
    | none => pure ((none : Option Nat), ([] : List (List Char)), ([] : List Bool))
  if leftRes.1 = none ∧ rightRes.1 = none then
    .error (.valueError "无法生成不存在性证明：没有参考节点") else
  .ok (leftRes.1, leftRes.2.1, leftRes.2.2, rightRes.1, rightRes.2.1, rightRes.2.2)

/-- `MerkleTree.leaf_data_to_index(leaf_data)` from `merkle_tree.py`. -/
def leaf_data_to_index (t : MerkleTreeS) (leaf_data : List Nat) :
    Except PyErr Nat := do
  let target ← hash_leaf leaf_data
  match (List.range t.leaf_hashes.length).find?
      (fun i => t.leaf_hashes.getD i [] = target ∧ i < t.leaf_count) with
  | some i => .ok i
  | none => .error (.valueError "叶子数据不在Merkle树中")

/-- `MerkleTree.verify_non_existence(...)` from `merkle_tree.py`. -/
def verify_non_existence (t : MerkleTreeS) (index : Int)
    (left_data : Option (List Nat)) (left_proof : List (List Char))
    (left_is_right : List Bool)
    (right_data : Option (List Nat)) (right_proof : List (List Char))
    (right_is_right : List Bool) : Except PyErr Bool := do
  let okLeft ← match left_data with
    | some ld => verify_proof ld left_proof left_is_right t.root
    | none => pure true
  if okLeft = false then .ok false else
  let okRight ← match right_data with
    | some rd => verify_proof rd right_proof right_is_right t.root
    | none => pure true
  if okRight = false then .ok false else
  match left_data, right_data with
  | some ld, some rd => do
    let left_index ← leaf_data_to_index t ld
    let right_index ← leaf_data_to_index t rd
    if (left_index : Int) < index ∧ index < (right_index : Int) then
      .ok true
    else
      .ok false
  | _, _ => .ok true

/-! ## Specification-side vocabulary for the digest format -/

/-- The sixteen characters a rendered (lowercase hexadecimal) digest may
contain. -/
def lowerHexChars : List Char :=
  '0' :: '1' :: '2' :: '3' :: '4' :: '5' :: '6' :: '7' :: '8' :: '9' ::
    'a' :: 'b' :: 'c' :: 'd' :: 'e' :: 'f' :: []

/-- The numeric value of a hex-digit string (most significant digit
first), the pure counterpart of `pyIntHex`. -/
def hexVal (s : List Char) : Nat :=
  s.foldl (fun a c => 16 * a + (hexCharVal c).getD 0) 0

/-! ## Exception plumbing lemmas -/

theorem ok_bind (a : α) (f : α → Except PyErr β) : (Except.ok a >>= f) = f a := rfl

theorem error_bind (e : PyErr) (f : α → Except PyErr β) :
    ((Except.error e : Except PyErr α) >>= f) = .error e := rfl

theorem foldE_nil (f : σ → α → Except PyErr σ) (s : σ) : foldE f s [] = .ok s := rfl

theorem foldE_cons (f : σ → α → Except PyErr σ) (s : σ) (a : α) (l : List α) :
    foldE f s (a :: l) =
      match f s a with
      | .ok s' => foldE f s' l
      | .error e => .error e := rfl

theorem foldE_append (f : σ → α → Except PyErr σ) (l₁ l₂ : List α) :
    ∀ s, foldE f s (l₁ ++ l₂) =
      match foldE f s l₁ with
      | .ok s' => foldE f s' l₂
      | .error e => .error e := by
  induction l₁ with
  | nil => intro s; rfl
  | cons a l ih =>
    intro s
    rw [List.cons_append, foldE_cons, foldE_cons]
    cases h : f s a with
    | ok s1 => exact ih s1
    | error e => rfl

theorem foldE_all_ok (f : σ → α → Except PyErr σ) :
    ∀ (l : List α), (∀ s a, a ∈ l → ∃ s', f s a = .ok s') →
      ∀ s, ∃ s', foldE f s l = .ok s' := by
  intro l
  induction l with
  | nil => exact fun _ s => ⟨s, rfl⟩
  | cons a l ih =>
    intro H s
    obtain ⟨s1, h1⟩ := H s a (List.mem_cons_self a l)
    obtain ⟨s2, h2⟩ := ih (fun t b hb => H t b (List.mem_cons_of_mem a hb)) s1
    refine ⟨s2, ?_⟩
    rw [foldE_cons, h1]
    exact h2

/-! ## Every SM3 compression call raises `ValueError` at round 33 -/

theorem rotate_left_err (x : Nat) {n : Nat} (hn : 32 < n) :
    rotate_left x n = .error (.valueError "negative shift count") := by
  unfold rotate_left; rw [if_pos hn]

theorem opt_rotate_left_err (x : Nat) {n : Nat} (hn : 32 < n) :
    opt_rotate_left x n = .error (.valueError "negative shift count") := by
  unfold opt_rotate_left; rw [if_pos hn]

theorem round_basic_err (W Wp : List Nat) (s : Regs) {j : Nat} (hj : 33 ≤ j) :
    round_basic W Wp s j = .error (.valueError "negative shift count") := by
  unfold round_basic
  simp only [rotate_left_err _ (show 32 < j by omega)]
  rfl

theorem round_basic_ok (W Wp : List Nat) (s : Regs) {j : Nat} (hj : j ≤ 32) :
    ∃ s', round_basic W Wp s j = .ok s' := by
  have hT : rotate_left (T.getD j 0) j
      = .ok (((T.getD j 0 <<< j) &&& 0xFFFFFFFF) |||
             ((T.getD j 0 >>> (32 - j)) &&& 0xFFFFFFFF)) := by
    unfold rotate_left; rw [if_neg (by omega)]
  unfold round_basic
  simp only [hT]
  exact ⟨_, rfl⟩

theorem round_opt_err (W Wp : List Nat) (s : RegsO) {j : Nat} (hj : 33 ≤ j) :
    round_opt W Wp s j = .error (.valueError "negative shift count") := by
  unfold round_opt
  simp only [opt_rotate_left_err _ (show 32 < j by omega)]
  rfl

theorem round_opt_ok (W Wp : List Nat) (s : RegsO) {j : Nat} (hj : j ≤ 32) :
    ∃ s', round_opt W Wp s j = .ok s' := by
  have hT : opt_rotate_left (optT.getD j 0) j
      = .ok (((optT.getD j 0 <<< j) ||| (optT.getD j 0 >>> (32 - j))) &&& 0xFFFFFFFF) := by
    unfold opt_rotate_left; rw [if_neg (by omega)]
  unfold round_opt
  simp only [hT]
  exact ⟨_, rfl⟩

theorem rounds64_basic_err (W Wp : List Nat) (s : Regs) :
    foldE (round_basic W Wp) s (List.range 64) =
      .error (.valueError "negative shift count") := by
  have hsplit : List.range 64 = List.range 33 ++ (33 :: List.range' 34 30) := by decide
  obtain ⟨s', hs'⟩ := foldE_all_ok (round_basic W Wp) (List.range 33)
    (fun t a ha => round_basic_ok W Wp t (by simp only [List.mem_range] at ha; omega)) s
  rw [hsplit, foldE_append, hs']
  show foldE (round_basic W Wp) s' (33 :: List.range' 34 30) = _
  rw [foldE_cons, round_basic_err W Wp s' (by omega)]

theorem rounds64_opt_err (W Wp : List Nat) (s : RegsO) :
    foldE (round_opt W Wp) s (List.range 64) =
      .error (.valueError "negative shift count") := by
  have hsplit : List.range 64 = List.range 33 ++ (33 :: List.range' 34 30) := by decide
  obtain ⟨s', hs'⟩ := foldE_all_ok (round_opt W Wp) (List.range 33)
    (fun t a ha => round_opt_ok W Wp t (by simp only [List.mem_range] at ha; omega)) s
  rw [hsplit, foldE_append, hs']
  show foldE (round_opt W Wp) s' (33 :: List.range' 34 30) = _
  rw [foldE_cons, round_opt_err W Wp s' (by omega)]

theorem message_extension_ok {B : List Nat} (hB : B.length = 64) :
    ∃ W Wp, message_extension B = .ok (W, Wp) := by
  obtain ⟨W, hW⟩ := foldE_all_ok
    (fun W j => do
      let r3 ← rotate_left (W.getD (j - 3) 0) 15
      let p ← P1 (W.getD (j - 16) 0 ^^^ W.getD (j - 9) 0 ^^^ r3)
      let r13 ← rotate_left (W.getD (j - 13) 0) 7
      let Wj := p ^^^ r13 ^^^ W.getD (j - 6) 0
      .ok (W ++ [Wj &&& 0xFFFFFFFF]))
    (List.range' 16 52) (fun t j _ => ⟨_, rfl⟩) (unpack16le B)
  refine ⟨W, (List.range 64).map fun j => (W.getD j 0 ^^^ W.getD (j + 4) 0) &&& 0xFFFFFFFF, ?_⟩
  unfold message_extension
  rw [if_neg (by omega)]
  simp only [hW]
  rfl

theorem opt_message_extension_ok {B : List Nat} (hB : B.length = 64) :
    ∃ W Wp, opt_message_extension B = .ok (W, Wp) := by
  obtain ⟨W, hW⟩ := foldE_all_ok
    (fun W j => do
      let v1 := W.getD (j - 16) 0 ^^^ W.getD (j - 9) 0
      let r3 ← opt_rotate_left (W.getD (j - 3) 0) 15
      let v2 ← opt_P1 (v1 ^^^ r3)
      let r13 ← opt_rotate_left (W.getD (j - 13) 0) 7
      let v3 := v2 ^^^ r13 ^^^ W.getD (j - 6) 0
      .ok (W.set j (v3 &&& 0xFFFFFFFF)))
    (List.range' 16 52) (fun t j _ => ⟨_, rfl⟩) (unpack16le B ++ List.replicate 52 0)
  refine ⟨W, (List.range 64).map fun j => W.getD j 0 ^^^ W.getD (j + 4) 0, ?_⟩
  unfold opt_message_extension
  rw [if_neg (by omega)]
  simp only [hW]
  rfl

/-- A list of length 8 is literally an 8-element list. -/
theorem list_len8 {α : Type} {v : List α} (hv : v.length = 8) :
    ∃ a b c d e f g h, v = [a, b, c, d, e, f, g, h] := by
  obtain ⟨a, v, rfl⟩ := List.exists_of_length_succ v hv
  simp only [List.length_cons] at hv
  obtain ⟨b, v, rfl⟩ := List.exists_of_length_succ v (show v.length = 6 + 1 by omega)
  simp only [List.length_cons] at hv
  obtain ⟨c, v, rfl⟩ := List.exists_of_length_succ v (show v.length = 5 + 1 by omega)
  simp only [List.length_cons] at hv
  obtain ⟨d, v, rfl⟩ := List.exists_of_length_succ v (show v.length = 4 + 1 by omega)
  simp only [List.length_cons] at hv
  obtain ⟨e, v, rfl⟩ := List.exists_of_length_succ v (show v.length = 3 + 1 by omega)
  simp only [List.length_cons] at hv
  obtain ⟨f, v, rfl⟩ := List.exists_of_length_succ v (show v.length = 2 + 1 by omega)
  simp only [List.length_cons] at hv
  obtain ⟨g, v, rfl⟩ := List.exists_of_length_succ v (show v.length = 1 + 1 by omega)
  simp only [List.length_cons] at hv
  obtain ⟨h, v, rfl⟩ := List.exists_of_length_succ v (show v.length = 0 + 1 by omega)
  simp only [List.length_cons] at hv
  rw [List.length_eq_zero.mp (by omega : v.length = 0)]
  exact ⟨a, b, c, d, e, f, g, h, rfl⟩

theorem compression_err {v B : List Nat} (hv : v.length = 8) (hB : B.length = 64) :
    compression v B = .error (.valueError "negative shift count") := by
  obtain ⟨W, Wp, hW⟩ := message_extension_ok hB
  obtain ⟨a0, b0, c0, d0, e0, f0, g0, h0, rfl⟩ := list_len8 hv
  unfold compression
  simp only [hW, ok_bind]
  rw [rounds64_basic_err]
  rfl

theorem opt_compression_err {v B : List Nat} (hv : v.length = 8) (hB : B.length = 64) :
    opt_compression v B = .error (.valueError "negative shift count") := by
  obtain ⟨W, Wp, hW⟩ := opt_message_extension_ok hB
  obtain ⟨a0, b0, c0, d0, e0, f0, g0, h0, rfl⟩ := list_len8 hv
  unfold opt_compression
  simp only [hW, ok_bind,
    show ∀ x : Nat, opt_rotate_left x 9 = .ok (((x <<< 9) ||| (x >>> 23)) &&& 0xFFFFFFFF)
      from fun x => rfl,
    show ∀ x : Nat, opt_rotate_left x 19 = .ok (((x <<< 19) ||| (x >>> 13)) &&& 0xFFFFFFFF)
      from fun x => rfl]
  rw [rounds64_opt_err]
  rfl

theorem padding_ok {m : List Nat} (hm : m.length * 8 < 2 ^ 64) :
    ∃ p, padding m = .ok p ∧ p.length % 64 = 0 ∧ 64 ≤ p.length := by
  simp only [padding, pack_u64le, List.length_append, List.length_singleton]
  rw [if_pos hm]
  have h512 : (((m.length + 1 : Nat) : Int) * 8) % 512
      = 8 * (((m.length + 1 : Nat) : Int) % 64) := by omega
  rw [h512]
  have hfd : Int.fdiv (448 - 8 * (((m.length + 1 : Nat) : Int) % 64)) 8
      = 56 - ((m.length + 1 : Nat) : Int) % 64 := by
    rw [show (448 : Int) - 8 * (((m.length + 1 : Nat) : Int) % 64)
        = 8 * (56 - ((m.length + 1 : Nat) : Int) % 64) by ring,
      Int.mul_fdiv_cancel_left _ (by norm_num)]
  rw [hfd]
  refine ⟨_, rfl, ?_, ?_⟩ <;>
    simp only [List.length_append, List.length_replicate, List.length_cons,
      List.length_singleton, List.length_nil] <;>
    by_cases hK : 56 - ((m.length + 1 : Nat) : Int) % 64 < 0 <;>
    simp only [if_pos, if_neg, hK, ite_true, ite_false] <;>
    omega

theorem opt_padding_ok {m : List Nat} (hm : m.length * 8 < 2 ^ 64) :
    ∃ p, opt_padding m = .ok p ∧ p.length % 64 = 0 ∧ 64 ≤ p.length := by
  simp only [opt_padding, pack_u64le]
  rw [if_pos hm]
  refine ⟨_, rfl, ?_, ?_⟩ <;>
    simp only [List.length_append, List.length_replicate, List.length_cons,
      List.length_singleton, List.length_nil] <;>
    omega

theorem pyChunks64_pos {l : List Nat} (hl : l ≠ []) :
    pyChunks64 l = l.take 64 :: pyChunks64Go (l.length - 1) (l.drop 64) := by
  have hpos : 0 < l.length := List.length_pos.mpr hl
  obtain ⟨n, hn⟩ : ∃ n, l.length = n + 1 := ⟨l.length - 1, by omega⟩
  rw [pyChunks64, hn]
  rw [show pyChunks64Go (n + 1) l
      = if l = [] then [] else l.take 64 :: pyChunks64Go n (l.drop 64) from rfl,
    if_neg hl]
  simp

/-- Every call of `sm3_hash` on a message whose bit length fits the
64-bit length field raises `ValueError` (negative shift count) while
compressing the very first block, at round `j = 33`. -/
theorem sm3_hash_always_raises {m : List Nat} (hm : m.length * 8 < 2 ^ 64) :
    sm3_hash m = .error (.valueError "negative shift count") := by
  obtain ⟨p, hp, hmod, hge⟩ := padding_ok hm
  have hne : p ≠ [] := by
    intro h
    rw [h] at hge
    simp at hge
  unfold sm3_hash
  rw [hp, ok_bind, pyChunks64_pos hne, foldE_cons,
    compression_err (show IV.length = 8 from rfl)
      (show (p.take 64).length = 64 by
        simp only [List.length_take]
        omega)]
  rfl

/-- Every call of `sm3_hash_optimized` on a message whose bit length fits
the 64-bit length field raises `ValueError` (negative shift count) while
compressing the very first block, at round `j = 33`. -/
theorem sm3_hash_optimized_always_raises {m : List Nat} (hm : m.length * 8 < 2 ^ 64) :
    sm3_hash_optimized m = .error (.valueError "negative shift count") := by
  obtain ⟨p, hp, hmod, hge⟩ := opt_padding_ok hm
  have hne : p ≠ [] := by
    intro h
    rw [h] at hge
    simp at hge
  unfold sm3_hash_optimized
  rw [hp, ok_bind, pyChunks64_pos hne, foldE_cons,
    opt_compression_err (show optIV.length = 8 from rfl)
      (show (p.take 64).length = 64 by
        simp only [List.length_take]
        omega)]
  rfl

/-! ## Hexadecimal rendering and parsing lemmas -/


theorem hexCharVal_getD_lt (c : Char) : (hexCharVal c).getD 0 < 16 := by
  unfold hexCharVal
  split_ifs <;> simp [Option.getD] <;> omega

theorem hexVal_from (s : List Char) :
    ∀ a : Nat, s.foldl (fun a c => 16 * a + (hexCharVal c).getD 0) a
      = a * 16 ^ s.length + hexVal s := by
  induction s with
  | nil => intro a; simp [hexVal]
  | cons c t ih =>
    intro a
    have hv : hexVal (c :: t) = (hexCharVal c).getD 0 * 16 ^ t.length + hexVal t := by
      show List.foldl _ (16 * 0 + (hexCharVal c).getD 0) t = _
      rw [show 16 * 0 + (hexCharVal c).getD 0 = (hexCharVal c).getD 0 by omega, ih]
    rw [List.foldl_cons, ih, hv, List.length_cons]
    ring

theorem hexVal_cons (c : Char) (t : List Char) :
    hexVal (c :: t) = (hexCharVal c).getD 0 * 16 ^ t.length + hexVal t := by
  show List.foldl _ (16 * 0 + (hexCharVal c).getD 0) t = _
  rw [show 16 * 0 + (hexCharVal c).getD 0 = (hexCharVal c).getD 0 by omega, hexVal_from]

theorem hexVal_append (s t : List Char) :
    hexVal (s ++ t) = hexVal s * 16 ^ t.length + hexVal t := by
  show (s ++ t).foldl _ 0 = _
  rw [List.foldl_append, hexVal_from]
  rfl

theorem hexVal_lt (s : List Char) : hexVal s < 16 ^ s.length := by
  induction s with
  | nil => simp [hexVal]
  | cons c t ih =>
    rw [hexVal_cons, List.length_cons]
    have h1 := hexCharVal_getD_lt c
    calc (hexCharVal c).getD 0 * 16 ^ t.length + hexVal t
        < (hexCharVal c).getD 0 * 16 ^ t.length + 16 ^ t.length := by omega
      _ = ((hexCharVal c).getD 0 + 1) * 16 ^ t.length := by ring
      _ ≤ 16 * 16 ^ t.length := Nat.mul_le_mul_right _ (by omega)
      _ = 16 ^ (t.length + 1) := by rw [pow_succ]; ring

theorem hexDigitChar_mem {d : Nat} (hd : d < 16) : hexDigitChar d ∈ lowerHexChars := by
  interval_cases d <;> decide

theorem hexCharVal_hexDigitChar {d : Nat} (hd : d < 16) :
    hexCharVal (hexDigitChar d) = some d := by
  interval_cases d <;> decide

theorem canon_char {c : Char} (hc : c ∈ lowerHexChars) :
    hexDigitChar ((hexCharVal c).getD 0) = c := by
  fin_cases hc <;> decide

theorem canon_isSome {c : Char} (hc : c ∈ lowerHexChars) : (hexCharVal c).isSome := by
  fin_cases hc <;> decide

-- hexStrCore lemmas

theorem hexStrCore_val : ∀ (fuel n : Nat) (acc : List Char), n ≤ fuel →
    hexVal (hexStrCore fuel n acc) = n * 16 ^ acc.length + hexVal acc := by
  intro fuel
  induction fuel with
  | zero =>
    intro n acc hn
    rw [show n = 0 by omega]
    simp [hexStrCore]
  | succ fuel ih =>
    intro n acc hn
    by_cases h0 : n = 0
    · rw [h0]; simp [hexStrCore]
    · rw [show hexStrCore (fuel + 1) n acc
          = if n = 0 then acc
            else hexStrCore fuel (n / 16) (hexDigitChar (n % 16) :: acc) from rfl,
        if_neg h0]
      rw [ih (n / 16) _ (by omega : n / 16 ≤ fuel)]
      rw [hexVal_cons, List.length_cons,
        hexCharVal_hexDigitChar (Nat.mod_lt n (by norm_num))]
      have hdm : 16 * (n / 16) + n % 16 = n := Nat.div_add_mod n 16
      have key : (n / 16) * 16 ^ (acc.length + 1) + (n % 16) * 16 ^ acc.length
          = n * 16 ^ acc.length := by
        have h2 : (n / 16) * 16 ^ (acc.length + 1) + (n % 16) * 16 ^ acc.length
            = (16 * (n / 16) + n % 16) * 16 ^ acc.length := by
          rw [pow_succ]; ring
        rw [h2, hdm]
      rw [Option.getD_some, ← Nat.add_assoc, key]

theorem hexStrCore_len : ∀ (fuel n : Nat) (acc : List Char) (w : Nat), n ≤ fuel →
    n < 16 ^ w → (hexStrCore fuel n acc).length ≤ w + acc.length := by
  intro fuel
  induction fuel with
  | zero =>
    intro n acc w hn hw
    rw [show n = 0 by omega]
    simp [hexStrCore]
  | succ fuel ih =>
    intro n acc w hn hw
    by_cases h0 : n = 0
    · rw [h0]; simp [hexStrCore]
    · rw [show hexStrCore (fuel + 1) n acc
          = if n = 0 then acc
            else hexStrCore fuel (n / 16) (hexDigitChar (n % 16) :: acc) from rfl,
        if_neg h0]
      match w with
      | 0 => omega
      | w' + 1 =>
        have hdiv : n / 16 < 16 ^ w' := by
          rw [Nat.div_lt_iff_lt_mul (by norm_num : (0:Nat) < 16)]
          calc n < 16 ^ (w' + 1) := hw
            _ = 16 ^ w' * 16 := by rw [pow_succ]
        have := ih (n / 16) (hexDigitChar (n % 16) :: acc) w' (by omega) hdiv
        simp only [List.length_cons] at this ⊢
        omega

theorem hexStrCore_mem : ∀ (fuel n : Nat) (acc : List Char),
    (∀ c ∈ acc, c ∈ lowerHexChars) →
    ∀ c ∈ hexStrCore fuel n acc, c ∈ lowerHexChars := by
  intro fuel
  induction fuel with
  | zero => intro n acc hacc; exact hacc
  | succ fuel ih =>
    intro n acc hacc
    by_cases h0 : n = 0
    · rw [h0]; simpa [hexStrCore] using hacc
    · rw [show hexStrCore (fuel + 1) n acc
          = if n = 0 then acc
            else hexStrCore fuel (n / 16) (hexDigitChar (n % 16) :: acc) from rfl,
        if_neg h0]
      refine ih (n / 16) _ ?_
      intro c hc
      rcases List.mem_cons.mp hc with h | h
      · rw [h]; exact hexDigitChar_mem (Nat.mod_lt n (by norm_num))
      · exact hacc c h

theorem hexVal_hexStr (n : Nat) : hexVal (hexStr n) = n := by
  unfold hexStr
  by_cases h0 : n = 0
  · rw [if_pos h0, h0]; decide
  · rw [if_neg h0, hexStrCore_val n n [] le_rfl]
    simp [hexVal]

theorem hexStr_len_le {n : Nat} (hn : n < 16 ^ 8) : (hexStr n).length ≤ 8 := by
  unfold hexStr
  by_cases h0 : n = 0
  · rw [if_pos h0]; decide
  · rw [if_neg h0]
    have := hexStrCore_len n n [] 8 le_rfl hn
    simpa using this

theorem hexStr_mem (n : Nat) : ∀ c ∈ hexStr n, c ∈ lowerHexChars := by
  unfold hexStr
  by_cases h0 : n = 0
  · rw [if_pos h0]; decide
  · rw [if_neg h0]
    exact hexStrCore_mem n n [] (by simp)

theorem hexVal_replicate_zero (k : Nat) : hexVal (List.replicate k '0') = 0 := by
  induction k with
  | zero => rfl
  | succ k ih =>
    rw [List.replicate_succ, hexVal_cons, ih,
      show (hexCharVal '0').getD 0 = 0 from rfl]
    simp

-- pyHex08 facts

theorem pyHex08_length {x : Nat} (hx : x < 2 ^ 32) : (pyHex08 x).length = 8 := by
  unfold pyHex08
  have := hexStr_len_le (show x < 16 ^ 8 by norm_num at *; omega)
  simp only [List.length_append, List.length_replicate]
  omega

theorem pyHex08_val (x : Nat) : hexVal (pyHex08 x) = x := by
  unfold pyHex08
  rw [hexVal_append, hexVal_replicate_zero, hexVal_hexStr]
  simp

theorem pyHex08_mem (x : Nat) : ∀ c ∈ pyHex08 x, c ∈ lowerHexChars := by
  unfold pyHex08
  intro c hc
  rcases List.mem_append.mp hc with h | h
  · rw [List.eq_of_mem_replicate h]; decide
  · exact hexStr_mem x c h

-- injectivity of hexVal on equal-length canonical strings

theorem hexVal_inj : ∀ (s t : List Char), s.length = t.length →
    (∀ c ∈ s, c ∈ lowerHexChars) → (∀ c ∈ t, c ∈ lowerHexChars) →
    hexVal s = hexVal t → s = t := by
  intro s
  induction s with
  | nil =>
    intro t hlen _ _ _
    exact (List.length_eq_zero.mp hlen.symm).symm
  | cons c s' ih =>
    intro t hlen hs ht hv
    match t with
    | [] => simp at hlen
    | d :: t' =>
      simp only [List.length_cons] at hlen
      have hL : s'.length = t'.length := by omega
      rw [hexVal_cons, hexVal_cons, ← hL] at hv
      have h1 : hexVal s' < 16 ^ s'.length := hexVal_lt s'
      have h2 : hexVal t' < 16 ^ s'.length := hL ▸ hexVal_lt t'
      have hcd : (hexCharVal c).getD 0 = (hexCharVal d).getD 0 := by
        have e1 : ((hexCharVal c).getD 0 * 16 ^ s'.length + hexVal s') / 16 ^ s'.length
            = (hexCharVal c).getD 0 := by
          rw [Nat.mul_comm, Nat.mul_add_div (Nat.pos_pow_of_pos _ (by norm_num)),
            Nat.div_eq_of_lt h1]
          omega
        have e2 : ((hexCharVal d).getD 0 * 16 ^ s'.length + hexVal t') / 16 ^ s'.length
            = (hexCharVal d).getD 0 := by
          rw [Nat.mul_comm, Nat.mul_add_div (Nat.pos_pow_of_pos _ (by norm_num)),
            Nat.div_eq_of_lt h2]
          omega
        rw [← e1, ← e2, hv]
      have hcd' : c = d := by
        rw [← canon_char (hs c (by simp)), ← canon_char (ht d (by simp)), hcd]
      subst hcd'
      rw [hcd] at hv
      have hv' : hexVal s' = hexVal t' := by omega
      rw [ih t' hL (fun x hx => hs x (List.mem_cons_of_mem _ hx))
        (fun x hx => ht x (List.mem_cons_of_mem _ hx)) hv']

theorem pyHex08_canon {x : Nat} {g : List Char} (hx : x < 2 ^ 32)
    (hg : g.length = 8) (hgc : ∀ c ∈ g, c ∈ lowerHexChars)
    (hv : hexVal g = x) : pyHex08 x = g := by
  refine hexVal_inj _ _ (by rw [pyHex08_length hx, hg]) (pyHex08_mem x) hgc ?_
  rw [pyHex08_val, hv]

-- pyIntHex on canonical strings

theorem foldE_hexdigits (s : List Char) (hc : ∀ c ∈ s, c ∈ lowerHexChars) :
    ∀ a : Nat, foldE intHexStep a s
      = .ok (s.foldl (fun acc c => 16 * acc + (hexCharVal c).getD 0) a) := by
  induction s with
  | nil => intro a; rfl
  | cons c t ih =>
    intro a
    obtain ⟨v, hv⟩ := Option.isSome_iff_exists.mp (canon_isSome (hc c (by simp)))
    rw [foldE_cons, show intHexStep a c = .ok (16 * a + v) by rw [intHexStep, hv]]
    show foldE _ (16 * a + v) t = _
    rw [ih (fun x hx => hc x (List.mem_cons_of_mem _ hx)) (16 * a + v),
      List.foldl_cons, hv]
    rfl

theorem pyIntHex_ok {s : List Char} (hne : s ≠ [])
    (hc : ∀ c ∈ s, c ∈ lowerHexChars) : pyIntHex s = .ok (hexVal s) := by
  unfold pyIntHex
  rw [if_neg hne, foldE_hexdigits s hc 0]
  rfl

-- extracting the i-th 8-block of a flattened list of 8-blocks

theorem flatten_block_extract : ∀ (bs : List (List Char)) (i : Nat),
    (∀ b ∈ bs, b.length = 8) → i < bs.length →
    ((bs.flatten).drop (8 * i)).take 8 = bs.getD i [] := by
  intro bs
  induction bs with
  | nil => intro i _ hi; simp at hi
  | cons b bs ih =>
    intro i hb hi
    match i with
    | 0 =>
      have hb8 : b.length = 8 := hb b (by simp)
      simp only [Nat.mul_zero, List.drop_zero, List.flatten_cons, List.getD]
      rw [← hb8, List.take_left]
      rfl
    | i + 1 =>
      have hb8 : b.length = 8 := hb b (by simp)
      rw [List.flatten_cons,
        show 8 * (i + 1) = b.length + 8 * i by omega,
        ← List.drop_drop, List.drop_left,
        ih i (fun x hx => hb x (List.mem_cons_of_mem _ hx)) (by simpa using hi)]
      rfl

-- parse_hash after render_digest recovers the state

theorem parse_render_digest {V : List Nat} (h8 : V.length = 8)
    (hlt : ∀ x ∈ V, x < 2 ^ 32) :
    parse_hash (render_digest V) = .ok V ∧ (render_digest V).length = 64 := by
  obtain ⟨v0, v1, v2, v3, v4, v5, v6, v7, rfl⟩ := list_len8 h8
  have hb0 : v0 < 2 ^ 32 := hlt v0 (by simp)
  have hb1 : v1 < 2 ^ 32 := hlt v1 (by simp)
  have hb2 : v2 < 2 ^ 32 := hlt v2 (by simp)
  have hb3 : v3 < 2 ^ 32 := hlt v3 (by simp)
  have hb4 : v4 < 2 ^ 32 := hlt v4 (by simp)
  have hb5 : v5 < 2 ^ 32 := hlt v5 (by simp)
  have hb6 : v6 < 2 ^ 32 := hlt v6 (by simp)
  have hb7 : v7 < 2 ^ 32 := hlt v7 (by simp)
  have hrd : render_digest [v0, v1, v2, v3, v4, v5, v6, v7] = ([pyHex08 v0, pyHex08 v1, pyHex08 v2, pyHex08 v3, pyHex08 v4, pyHex08 v5, pyHex08 v6, pyHex08 v7] : List (List Char)).flatten := by
    simp [render_digest]
  have hblocks : ∀ b ∈ ([pyHex08 v0, pyHex08 v1, pyHex08 v2, pyHex08 v3, pyHex08 v4, pyHex08 v5, pyHex08 v6, pyHex08 v7] : List (List Char)), b.length = 8 := by
    intro b hb
    simp only [List.mem_cons, List.not_mem_nil, or_false] at hb
    rcases hb with rfl | rfl | rfl | rfl | rfl | rfl | rfl | rfl <;>
      first
      | exact pyHex08_length hb0
      | exact pyHex08_length hb1
      | exact pyHex08_length hb2
      | exact pyHex08_length hb3
      | exact pyHex08_length hb4
      | exact pyHex08_length hb5
      | exact pyHex08_length hb6
      | exact pyHex08_length hb7
  have hlen : (render_digest [v0, v1, v2, v3, v4, v5, v6, v7]).length = 64 := by
    rw [hrd]
    simp only [List.flatten_cons, List.flatten_nil, List.length_append, List.length_nil]
    rw [pyHex08_length hb0, pyHex08_length hb1, pyHex08_length hb2, pyHex08_length hb3, pyHex08_length hb4, pyHex08_length hb5, pyHex08_length hb6, pyHex08_length hb7]
  have he0 : ((render_digest [v0, v1, v2, v3, v4, v5, v6, v7]).drop 0).take 8 = pyHex08 v0 := by
    have h := flatten_block_extract [pyHex08 v0, pyHex08 v1, pyHex08 v2, pyHex08 v3, pyHex08 v4, pyHex08 v5, pyHex08 v6, pyHex08 v7] 0 hblocks (by norm_num)
    rw [show (8 : Nat) * 0 = 0 from by norm_num] at h
    rw [hrd]
    exact h
  have he1 : ((render_digest [v0, v1, v2, v3, v4, v5, v6, v7]).drop 8).take 8 = pyHex08 v1 := by
    have h := flatten_block_extract [pyHex08 v0, pyHex08 v1, pyHex08 v2, pyHex08 v3, pyHex08 v4, pyHex08 v5, pyHex08 v6, pyHex08 v7] 1 hblocks (by norm_num)
    rw [show (8 : Nat) * 1 = 8 from by norm_num] at h
    rw [hrd]
    exact h
  have he2 : ((render_digest [v0, v1, v2, v3, v4, v5, v6, v7]).drop 16).take 8 = pyHex08 v2 := by
    have h := flatten_block_extract [pyHex08 v0, pyHex08 v1, pyHex08 v2, pyHex08 v3, pyHex08 v4, pyHex08 v5, pyHex08 v6, pyHex08 v7] 2 hblocks (by norm_num)
    rw [show (8 : Nat) * 2 = 16 from by norm_num] at h
    rw [hrd]
    exact h
  have he3 : ((render_digest [v0, v1, v2, v3, v4, v5, v6, v7]).drop 24).take 8 = pyHex08 v3 := by
    have h := flatten_block_extract [pyHex08 v0, pyHex08 v1, pyHex08 v2, pyHex08 v3, pyHex08 v4, pyHex08 v5, pyHex08 v6, pyHex08 v7] 3 hblocks (by norm_num)
    rw [show (8 : Nat) * 3 = 24 from by norm_num] at h
    rw [hrd]
    exact h
  have he4 : ((render_digest [v0, v1, v2, v3, v4, v5, v6, v7]).drop 32).take 8 = pyHex08 v4 := by
    have h := flatten_block_extract [pyHex08 v0, pyHex08 v1, pyHex08 v2, pyHex08 v3, pyHex08 v4, pyHex08 v5, pyHex08 v6, pyHex08 v7] 4 hblocks (by norm_num)
    rw [show (8 : Nat) * 4 = 32 from by norm_num] at h
    rw [hrd]
    exact h
  have he5 : ((render_digest [v0, v1, v2, v3, v4, v5, v6, v7]).drop 40).take 8 = pyHex08 v5 := by
    have h := flatten_block_extract [pyHex08 v0, pyHex08 v1, pyHex08 v2, pyHex08 v3, pyHex08 v4, pyHex08 v5, pyHex08 v6, pyHex08 v7] 5 hblocks (by norm_num)
    rw [show (8 : Nat) * 5 = 40 from by norm_num] at h
    rw [hrd]
    exact h
  have he6 : ((render_digest [v0, v1, v2, v3, v4, v5, v6, v7]).drop 48).take 8 = pyHex08 v6 := by
    have h := flatten_block_extract [pyHex08 v0, pyHex08 v1, pyHex08 v2, pyHex08 v3, pyHex08 v4, pyHex08 v5, pyHex08 v6, pyHex08 v7] 6 hblocks (by norm_num)
    rw [show (8 : Nat) * 6 = 48 from by norm_num] at h
    rw [hrd]
    exact h
  have he7 : ((render_digest [v0, v1, v2, v3, v4, v5, v6, v7]).drop 56).take 8 = pyHex08 v7 := by
    have h := flatten_block_extract [pyHex08 v0, pyHex08 v1, pyHex08 v2, pyHex08 v3, pyHex08 v4, pyHex08 v5, pyHex08 v6, pyHex08 v7] 7 hblocks (by norm_num)
    rw [show (8 : Nat) * 7 = 56 from by norm_num] at h
    rw [hrd]
    exact h
  have hp0 : pyIntHex (((render_digest [v0, v1, v2, v3, v4, v5, v6, v7]).drop 0).take 8) = .ok v0 := by
    rw [he0, pyIntHex_ok ?_ (pyHex08_mem v0), pyHex08_val]
    intro hnil
    have hL8 := pyHex08_length hb0
    rw [hnil] at hL8
    simp at hL8
  have hp1 : pyIntHex (((render_digest [v0, v1, v2, v3, v4, v5, v6, v7]).drop 8).take 8) = .ok v1 := by
    rw [he1, pyIntHex_ok ?_ (pyHex08_mem v1), pyHex08_val]
    intro hnil
    have hL8 := pyHex08_length hb1
    rw [hnil] at hL8
    simp at hL8
  have hp2 : pyIntHex (((render_digest [v0, v1, v2, v3, v4, v5, v6, v7]).drop 16).take 8) = .ok v2 := by
    rw [he2, pyIntHex_ok ?_ (pyHex08_mem v2), pyHex08_val]
    intro hnil
    have hL8 := pyHex08_length hb2
    rw [hnil] at hL8
    simp at hL8
  have hp3 : pyIntHex (((render_digest [v0, v1, v2, v3, v4, v5, v6, v7]).drop 24).take 8) = .ok v3 := by
    rw [he3, pyIntHex_ok ?_ (pyHex08_mem v3), pyHex08_val]
    intro hnil
    have hL8 := pyHex08_length hb3
    rw [hnil] at hL8
    simp at hL8
  have hp4 : pyIntHex (((render_digest [v0, v1, v2, v3, v4, v5, v6, v7]).drop 32).take 8) = .ok v4 := by
    rw [he4, pyIntHex_ok ?_ (pyHex08_mem v4), pyHex08_val]
    intro hnil
    have hL8 := pyHex08_length hb4
    rw [hnil] at hL8
    simp at hL8
  have hp5 : pyIntHex (((render_digest [v0, v1, v2, v3, v4, v5, v6, v7]).drop 40).take 8) = .ok v5 := by
    rw [he5, pyIntHex_ok ?_ (pyHex08_mem v5), pyHex08_val]
    intro hnil
    have hL8 := pyHex08_length hb5
    rw [hnil] at hL8
    simp at hL8
  have hp6 : pyIntHex (((render_digest [v0, v1, v2, v3, v4, v5, v6, v7]).drop 48).take 8) = .ok v6 := by
    rw [he6, pyIntHex_ok ?_ (pyHex08_mem v6), pyHex08_val]
    intro hnil
    have hL8 := pyHex08_length hb6
    rw [hnil] at hL8
    simp at hL8
  have hp7 : pyIntHex (((render_digest [v0, v1, v2, v3, v4, v5, v6, v7]).drop 56).take 8) = .ok v7 := by
    rw [he7, pyIntHex_ok ?_ (pyHex08_mem v7), pyHex08_val]
    intro hnil
    have hL8 := pyHex08_length hb7
    rw [hnil] at hL8
    simp at hL8
  refine ⟨?_, hlen⟩
  unfold parse_hash
  rw [if_neg (by omega)]
  simp only [List.drop_zero] at hp0
  simp only [List.drop_zero, hp0, hp1, hp2, hp3, hp4, hp5, hp6, hp7, ok_bind]

-- render_digest after parse_hash reproduces a well-formed digest

theorem render_parse_digest {d : List Char} (h64 : d.length = 64)
    (hc : ∀ c ∈ d, c ∈ lowerHexChars) :
    ∃ V, parse_hash d = .ok V ∧ render_digest V = d := by
  have hg0 : ((d.drop 0).take 8).length = 8 := by
    simp only [List.length_take, List.length_drop]
    omega
  have hgc0 : ∀ c ∈ (d.drop 0).take 8, c ∈ lowerHexChars :=
    fun c hx => hc c (List.drop_subset _ _ (List.take_subset _ _ hx))
  have hgne0 : (d.drop 0).take 8 ≠ [] := by
    intro hnil
    rw [hnil] at hg0
    simp at hg0
  have hp0 : pyIntHex ((d.drop 0).take 8) = .ok (hexVal ((d.drop 0).take 8)) :=
    pyIntHex_ok hgne0 hgc0
  have hv0 : hexVal ((d.drop 0).take 8) < 2 ^ 32 := by
    have hlt := hexVal_lt ((d.drop 0).take 8)
    rw [hg0] at hlt
    norm_num at hlt ⊢
    omega
  have hcan0 : pyHex08 (hexVal ((d.drop 0).take 8)) = (d.drop 0).take 8 :=
    pyHex08_canon hv0 hg0 hgc0 rfl
  have hg1 : ((d.drop 8).take 8).length = 8 := by
    simp only [List.length_take, List.length_drop]
    omega
  have hgc1 : ∀ c ∈ (d.drop 8).take 8, c ∈ lowerHexChars :=
    fun c hx => hc c (List.drop_subset _ _ (List.take_subset _ _ hx))
  have hgne1 : (d.drop 8).take 8 ≠ [] := by
    intro hnil
    rw [hnil] at hg1
    simp at hg1
  have hp1 : pyIntHex ((d.drop 8).take 8) = .ok (hexVal ((d.drop 8).take 8)) :=
    pyIntHex_ok hgne1 hgc1
  have hv1 : hexVal ((d.drop 8).take 8) < 2 ^ 32 := by
    have hlt := hexVal_lt ((d.drop 8).take 8)
    rw [hg1] at hlt
    norm_num at hlt ⊢
    omega
  have hcan1 : pyHex08 (hexVal ((d.drop 8).take 8)) = (d.drop 8).take 8 :=
    pyHex08_canon hv1 hg1 hgc1 rfl
  have hg2 : ((d.drop 16).take 8).length = 8 := by
    simp only [List.length_take, List.length_drop]
    omega
  have hgc2 : ∀ c ∈ (d.drop 16).take 8, c ∈ lowerHexChars :=
    fun c hx => hc c (List.drop_subset _ _ (List.take_subset _ _ hx))
  have hgne2 : (d.drop 16).take 8 ≠ [] := by
    intro hnil
    rw [hnil] at hg2
    simp at hg2
  have hp2 : pyIntHex ((d.drop 16).take 8) = .ok (hexVal ((d.drop 16).take 8)) :=
    pyIntHex_ok hgne2 hgc2
  have hv2 : hexVal ((d.drop 16).take 8) < 2 ^ 32 := by
    have hlt := hexVal_lt ((d.drop 16).take 8)
    rw [hg2] at hlt
    norm_num at hlt ⊢
    omega
  have hcan2 : pyHex08 (hexVal ((d.drop 16).take 8)) = (d.drop 16).take 8 :=
    pyHex08_canon hv2 hg2 hgc2 rfl
  have hg3 : ((d.drop 24).take 8).length = 8 := by
    simp only [List.length_take, List.length_drop]
    omega
  have hgc3 : ∀ c ∈ (d.drop 24).take 8, c ∈ lowerHexChars :=
    fun c hx => hc c (List.drop_subset _ _ (List.take_subset _ _ hx))
  have hgne3 : (d.drop 24).take 8 ≠ [] := by
    intro hnil
    rw [hnil] at hg3
    simp at hg3
  have hp3 : pyIntHex ((d.drop 24).take 8) = .ok (hexVal ((d.drop 24).take 8)) :=
    pyIntHex_ok hgne3 hgc3
  have hv3 : hexVal ((d.drop 24).take 8) < 2 ^ 32 := by
    have hlt := hexVal_lt ((d.drop 24).take 8)
    rw [hg3] at hlt
    norm_num at hlt ⊢
    omega
  have hcan3 : pyHex08 (hexVal ((d.drop 24).take 8)) = (d.drop 24).take 8 :=
    pyHex08_canon hv3 hg3 hgc3 rfl
  have hg4 : ((d.drop 32).take 8).length = 8 := by
    simp only [List.length_take, List.length_drop]
    omega
  have hgc4 : ∀ c ∈ (d.drop 32).take 8, c ∈ lowerHexChars :=
    fun c hx => hc c (List.drop_subset _ _ (List.take_subset _ _ hx))
  have hgne4 : (d.drop 32).take 8 ≠ [] := by
    intro hnil
    rw [hnil] at hg4
    simp at hg4
  have hp4 : pyIntHex ((d.drop 32).take 8) = .ok (hexVal ((d.drop 32).take 8)) :=
    pyIntHex_ok hgne4 hgc4
  have hv4 : hexVal ((d.drop 32).take 8) < 2 ^ 32 := by
    have hlt := hexVal_lt ((d.drop 32).take 8)
    rw [hg4] at hlt
    norm_num at hlt ⊢
    omega
  have hcan4 : pyHex08 (hexVal ((d.drop 32).take 8)) = (d.drop 32).take 8 :=
    pyHex08_canon hv4 hg4 hgc4 rfl
  have hg5 : ((d.drop 40).take 8).length = 8 := by
    simp only [List.length_take, List.length_drop]
    omega
  have hgc5 : ∀ c ∈ (d.drop 40).take 8, c ∈ lowerHexChars :=
    fun c hx => hc c (List.drop_subset _ _ (List.take_subset _ _ hx))
  have hgne5 : (d.drop 40).take 8 ≠ [] := by
    intro hnil
    rw [hnil] at hg5
    simp at hg5
  have hp5 : pyIntHex ((d.drop 40).take 8) = .ok (hexVal ((d.drop 40).take 8)) :=
    pyIntHex_ok hgne5 hgc5
  have hv5 : hexVal ((d.drop 40).take 8) < 2 ^ 32 := by
    have hlt := hexVal_lt ((d.drop 40).take 8)
    rw [hg5] at hlt
    norm_num at hlt ⊢
    omega
  have hcan5 : pyHex08 (hexVal ((d.drop 40).take 8)) = (d.drop 40).take 8 :=
    pyHex08_canon hv5 hg5 hgc5 rfl
  have hg6 : ((d.drop 48).take 8).length = 8 := by
    simp only [List.length_take, List.length_drop]
    omega
  have hgc6 : ∀ c ∈ (d.drop 48).take 8, c ∈ lowerHexChars :=
    fun c hx => hc c (List.drop_subset _ _ (List.take_subset _ _ hx))
  have hgne6 : (d.drop 48).take 8 ≠ [] := by
    intro hnil
    rw [hnil] at hg6
    simp at hg6
  have hp6 : pyIntHex ((d.drop 48).take 8) = .ok (hexVal ((d.drop 48).take 8)) :=
    pyIntHex_ok hgne6 hgc6
  have hv6 : hexVal ((d.drop 48).take 8) < 2 ^ 32 := by
    have hlt := hexVal_lt ((d.drop 48).take 8)
    rw [hg6] at hlt
    norm_num at hlt ⊢
    omega
  have hcan6 : pyHex08 (hexVal ((d.drop 48).take 8)) = (d.drop 48).take 8 :=
    pyHex08_canon hv6 hg6 hgc6 rfl
  have hg7 : ((d.drop 56).take 8).length = 8 := by
    simp only [List.length_take, List.length_drop]
    omega
  have hgc7 : ∀ c ∈ (d.drop 56).take 8, c ∈ lowerHexChars :=
    fun c hx => hc c (List.drop_subset _ _ (List.take_subset _ _ hx))
  have hgne7 : (d.drop 56).take 8 ≠ [] := by
    intro hnil
    rw [hnil] at hg7
    simp at hg7
  have hp7 : pyIntHex ((d.drop 56).take 8) = .ok (hexVal ((d.drop 56).take 8)) :=
    pyIntHex_ok hgne7 hgc7
  have hv7 : hexVal ((d.drop 56).take 8) < 2 ^ 32 := by
    have hlt := hexVal_lt ((d.drop 56).take 8)
    rw [hg7] at hlt
    norm_num at hlt ⊢
    omega
  have hcan7 : pyHex08 (hexVal ((d.drop 56).take 8)) = (d.drop 56).take 8 :=
    pyHex08_canon hv7 hg7 hgc7 rfl
  refine ⟨[hexVal ((d.drop 0).take 8), hexVal ((d.drop 8).take 8), hexVal ((d.drop 16).take 8), hexVal ((d.drop 24).take 8), hexVal ((d.drop 32).take 8), hexVal ((d.drop 40).take 8), hexVal ((d.drop 48).take 8), hexVal ((d.drop 56).take 8)], ?_, ?_⟩
  · unfold parse_hash
    rw [if_neg (by omega)]
    simp only [List.drop_zero] at hp0
    simp only [List.drop_zero, hp0, hp1, hp2, hp3, hp4, hp5, hp6, hp7, ok_bind]
  · unfold render_digest
    simp only [List.map_cons, List.map_nil, List.flatten_cons, List.flatten_nil]
    rw [hcan0, hcan1, hcan2, hcan3, hcan4, hcan5, hcan6, hcan7]
    rw [List.append_nil]
    have hfinal : (d.drop 56).take 8 = d.drop 56 :=
      List.take_of_length_le (by simp only [List.length_drop]; omega)
    rw [hfinal]
    rw [show (d.drop 48).take 8 ++ d.drop 56 = d.drop 48 from by
      conv_rhs => rw [← List.take_append_drop 8 (d.drop 48)]
      rw [List.drop_drop]]
    rw [show (d.drop 40).take 8 ++ d.drop 48 = d.drop 40 from by
      conv_rhs => rw [← List.take_append_drop 8 (d.drop 40)]
      rw [List.drop_drop]]
    rw [show (d.drop 32).take 8 ++ d.drop 40 = d.drop 32 from by
      conv_rhs => rw [← List.take_append_drop 8 (d.drop 32)]
      rw [List.drop_drop]]
    rw [show (d.drop 24).take 8 ++ d.drop 32 = d.drop 24 from by
      conv_rhs => rw [← List.take_append_drop 8 (d.drop 24)]
      rw [List.drop_drop]]
    rw [show (d.drop 16).take 8 ++ d.drop 24 = d.drop 16 from by
      conv_rhs => rw [← List.take_append_drop 8 (d.drop 16)]
      rw [List.drop_drop]]
    rw [show (d.drop 8).take 8 ++ d.drop 16 = d.drop 8 from by
      conv_rhs => rw [← List.take_append_drop 8 (d.drop 8)]
      rw [List.drop_drop]]
    rw [show (d.drop 0).take 8 ++ d.drop 8 = d.drop 0 from by
      conv_rhs => rw [← List.take_append_drop 8 (d.drop 0)]
      rw [List.drop_drop]]
    rw [List.drop_zero]

/-! ## Claim theorems -/

/-- C1: the spec claims that for every `(prefix, suffix)` pair the forged
digest from `sm3_length_extension_attack` matches the real hash of the
extended message.  The code refutes this: the attack function itself
raises `ValueError` (negative shift count) inside `_compression` at round
`j = 33`, here shown on the well-formed all-zero digest with
`original_length = 0` and empty suffix — no forged digest is ever
produced (and `hash(prefix)` itself raises, so the premise digest cannot
even be computed). -/
theorem c1_length_extension_attack_raises :
    sm3_length_extension_attack (List.replicate 64 '0') 0 [] =
      .error (.valueError "negative shift count") := rfl

/-- C2: the spec claims `hash` is a total function that cannot raise for
any byte input.  In fact both implementations raise
`ValueError: negative shift count` on EVERY message whose bit length fits
the 64-bit length field (the rotation `rotate_left(T[j], j)` at round
`j = 33` computes `x >> (32 - 33)`, a negative shift). -/
theorem c2_hash_total_is_false (m : List Nat) (hm : m.length * 8 < 2 ^ 64) :
    sm3_hash m = .error (.valueError "negative shift count") ∧
    sm3_hash_optimized m = .error (.valueError "negative shift count") :=
  ⟨sm3_hash_always_raises hm, sm3_hash_optimized_always_raises hm⟩

/-- Witness for C2 at the empty message. -/
theorem c2_hash_total_is_false_witness :
    ([] : List Nat).length * 8 < 2 ^ 64 ∧
    sm3_hash [] = .error (.valueError "negative shift count") ∧
    sm3_hash_optimized [] = .error (.valueError "negative shift count") :=
  ⟨by decide, (c2_hash_total_is_false [] (by decide)).1,
    (c2_hash_total_is_false [] (by decide)).2⟩

/-- C3: the spec says round `j` computes
`SS1 = rotl((rotl(A,12) + E + rotl(T[j], j mod 32)) mod 2^32, 7)`.
The code rotates by `j` without reducing modulo 32: at round `j = 33`
the rotation of `T[33] = 0x7A879D8A` raises `ValueError` (negative shift
count), whereas the rotation by `33 % 32` the spec prescribes is
well-defined and yields `0xF50F3B14`. -/
theorem c3_round33_rotation_raises :
    rotate_left (T.getD 33 0) 33 = .error (.valueError "negative shift count") ∧
    rotate_left (T.getD 33 0) (33 % 32) = .ok 0xF50F3B14 := ⟨rfl, rfl⟩

/-- C4: the spec claims every proof produced for a valid leaf index
verifies against the root.  No such tree exists: already constructing
the tree over the repo's own test leaf `b"leaf1"` raises `ValueError`
inside `hash_leaf` (SM3 round 33), so `get_proof`/`verify_proof` are
unreachable on any nonempty tree. -/
theorem c4_tree_construction_raises :
    mkMerkleTree [[108, 101, 97, 102, 49]] =
      .error (.valueError "negative shift count") := rfl

/-- C5: the spec claims `hash(b"abc")` equals the standard 64-hex-char
test vector.  The code raises `ValueError` on `b"abc"` instead, so the
digest is never produced and in particular never equals the documented
vector (the repo's own `test_sm3_optimized` asserts this very value). -/
theorem c5_abc_vector_never_produced :
    sm3_hash_optimized [97, 98, 99] = .error (.valueError "negative shift count") ∧
    sm3_hash_optimized [97, 98, 99] ≠
      .ok "66c7f0f462eeedd9d1f2d46bdc10e4e24167c4875cf2f7a2297da02b8f4ba8e0".toList := by
  refine ⟨rfl, ?_⟩
  rw [show sm3_hash_optimized [97, 98, 99]
      = Except.error (PyErr.valueError "negative shift count") from rfl]
  simp

/-- C6: the spec claims the two engine implementations agree and return
equal digests on every input.  Neither ever returns a digest: on the
repo's own test input `b"abc"` both raise `ValueError` (negative shift
count) instead of producing the asserted common value. -/
theorem c6_both_engines_raise_on_abc :
    sm3_hash [97, 98, 99] = .error (.valueError "negative shift count") ∧
    sm3_hash_optimized [97, 98, 99] = .error (.valueError "negative shift count") :=
  ⟨rfl, rfl⟩

/-- C7: the spec claims `verify` is a pure check that never throws and
reports tampering as `false`.  In fact `verify_proof` raises `ValueError`
for every call (its first step `hash_leaf(leaf_data)` reaches SM3 round
33), so no boolean is ever returned. -/
theorem c7_verify_proof_always_raises (leaf : List Nat) (proof : List (List Char))
    (is_right : List Bool) (root : List Char)
    (h : (leaf.length + 1) * 8 < 2 ^ 64) :
    verify_proof leaf proof is_right root =
      .error (.valueError "negative shift count") := by
  unfold verify_proof hash_leaf
  rw [sm3_hash_optimized_always_raises (by simp [leafDomainTag]; omega)]
  rfl

/-- Witness for C7 on the empty leaf with an empty proof. -/
theorem c7_verify_proof_always_raises_witness :
    (([] : List Nat).length + 1) * 8 < 2 ^ 64 ∧
    verify_proof [] [] [] RFC6962_EMPTY_ROOT =
      .error (.valueError "negative shift count") :=
  ⟨by decide, c7_verify_proof_always_raises [] [] [] RFC6962_EMPTY_ROOT (by decide)⟩

/-- C8: the spec's absence-proof contract is stated for trees with
`leaf_count ≥ 1`, but no such tree is constructible: building the repo's
own five-leaf test tree `[b"0", b"1", b"2", b"3", b"4"]` (on which
`get_non_existence_proof(5)` is then exercised) raises `ValueError`
inside `hash_leaf` before `size`, `height` or the levels exist. -/
theorem c8_absence_proof_tree_unconstructible :
    mkMerkleTree [[48], [49], [50], [51], [52]] =
      .error (.valueError "negative shift count") := rfl

/-- C9: the spec's padding/height law.  For `n ≥ 1` construction raises
before `size`/`height` are ever assigned (shown for `n = 1`); for
`n = 0` the constructor sets the canonical empty root but never assigns
`height` or `size` at all (modeled as `none`; Python raises
`AttributeError` on access), contradicting `height == 0`. -/
theorem c9_padding_height_law_fails :
    mkMerkleTree [[97]] = .error (.valueError "negative shift count") ∧
    mkMerkleTree [] = .ok ⟨[], 0, RFC6962_EMPTY_ROOT, [], none, none⟩ :=
  ⟨rfl, rfl⟩

/-- C10: rendering a chaining state and parsing a digest are exact
inverses: for every state of 8 words below `2^32`,
`parse_hash (render_digest V) = V` and the rendered digest has length
exactly 64; conversely every well-formed 64-character lowercase hex
digest satisfies `render_digest (parse_hash d) = d`. -/
theorem c10_parse_render_exact_inverses :
    (∀ V : List Nat, V.length = 8 → (∀ x ∈ V, x < 2 ^ 32) →
      parse_hash (render_digest V) = .ok V ∧ (render_digest V).length = 64) ∧
    (∀ d : List Char, d.length = 64 → (∀ c ∈ d, c ∈ lowerHexChars) →
      ∃ V, parse_hash d = .ok V ∧ render_digest V = d) :=
  ⟨fun _ h8 hlt => parse_render_digest h8 hlt,
    fun _ h64 hc => render_parse_digest h64 hc⟩

/-- Witness for C10 at a concrete state and a concrete digest. -/
theorem c10_parse_render_exact_inverses_witness :
    (parse_hash (render_digest [1, 2, 3, 4, 5, 6, 7, 2309737967])
        = .ok [1, 2, 3, 4, 5, 6, 7, 2309737967] ∧
      (render_digest [1, 2, 3, 4, 5, 6, 7, 2309737967]).length = 64) ∧
    (∃ V, parse_hash
        ("0123456789abcdef0123456789abcdef0123456789abcdef0123456789abcdef".toList)
        = .ok V ∧ render_digest V
        = "0123456789abcdef0123456789abcdef0123456789abcdef0123456789abcdef".toList) :=
  ⟨c10_parse_render_exact_inverses.1 [1, 2, 3, 4, 5, 6, 7, 2309737967]
      (by decide) (by decide),
    c10_parse_render_exact_inverses.2
      ("0123456789abcdef0123456789abcdef0123456789abcdef0123456789abcdef".toList)
      (by decide) (by decide)⟩
